import Mathlib

/- Shallow embedding of k_means_clustering.py (repository camdenkr/CS-Datascience,
   file src/homework-1-camdenkr/k_means_clustering.py).

   Coordinates are rational numbers.  numpy floating-point values that are
   undefined (NaN, produced when a zero sum is divided by a zero count in
   get_centroids) are modelled as Option.none; a well-defined coordinate q is
   modelled as some q.  A Point is a list of such coordinates.  Exact rational
   arithmetic replaces floating point; the expression
   np.linalg.norm(sample - centroids, axis=-1)**2 is the sum of squared
   coordinate differences, since squaring undoes the square root exactly. -/

abbrev OQ : Type := Option ℚ

def OQ.add : OQ → OQ → OQ
  | some a, some b => some (a + b)
  | _, _ => none

def OQ.sub : OQ → OQ → OQ
  | some a, some b => some (a - b)
  | _, _ => none

def OQ.mul : OQ → OQ → OQ
  | some a, some b => some (a * b)
  | _, _ => none

/- Division of floats as they occur in this program: the only division by zero
   the program can perform is 0.0/0.0 (the zero row sum of an empty cluster by
   its zero count), which numpy evaluates to NaN, i.e. none here.  A division
   by a zero denominator therefore yields none, and NaN propagates. -/
def OQ.div : OQ → OQ → OQ
  | some a, some b => if b = 0 then none else some (a / b)
  | _, _ => none

abbrev Point : Type := List OQ

/- A point with well-defined (non-NaN) coordinates, as loaded from data. -/
def mkPoint (p : List ℚ) : Point := p.map some

def mkPoints (ps : List (List ℚ)) : List Point := ps.map mkPoint

/- Comparison used by np.argmin when it decides whether to replace the current
   best value: a new value replaces the best when it compares strictly below
   it, and a NaN captures the scan (NaN < x is false and x < NaN is false for
   every float x, and numpy argmin keeps the first NaN once seen). -/
def OQ.lt : OQ → OQ → Bool
  | some a, some b => decide (a < b)
  | none, some _ => true
  | _, none => false

/- np.argmin over a list of values: index of the first minimum, or of the
   first NaN when one is present.  bv and bi are the best value and best index
   so far, i the index of the head of the remaining list. -/
def argminAux : List OQ → ℕ → OQ → ℕ → ℕ
  | [], _, _, bi => bi
  | v :: rest, i, bv, bi =>
    if OQ.lt v bv then argminAux rest (i + 1) v i else argminAux rest (i + 1) bv bi

/- np.argmin raises a ValueError on an empty array; the claims below always
   apply argmin to non-empty lists, where this embedding is exact. -/
def argmin : List OQ → ℕ
  | [] => 0
  | v :: rest => argminAux rest 1 v 0

/- Squared euclidean distance, the value of np.linalg.norm(sample - c)**2 for
   one centroid row c.  numpy broadcasting requires the two rows to have equal
   length; theorems that need it carry that hypothesis. -/
def sqdist (p q : Point) : OQ :=
  ((List.zipWith OQ.sub p q).map (fun x => OQ.mul x x)).foldl OQ.add (some 0)

/- def find_closest_centroids(samples, centroids):
     for each sample, cluster_ids[i] = argmin over centroids of the squared
     distance. -/
def find_closest_centroids (samples centroids : List Point) : List ℕ :=
  samples.map (fun s => argmin (centroids.map (fun c => sqdist s c)))

/- Coordinate-wise addition, centroids[cluster] += samples[i]. -/
def vadd (p q : Point) : Point := List.zipWith OQ.add p q

/- One step of the accumulation loop of get_centroids:
     counts[cluster] += 1 ; centroids[cluster] += samples[i]. -/
def accStep (acc : List ℕ × List Point) (sc : Point × ℕ) : List ℕ × List Point :=
  (acc.1.set sc.2 (acc.1.getD sc.2 0 + 1),
   acc.2.set sc.2 (vadd (acc.2.getD sc.2 []) sc.1))

/- def get_centroids(samples, clusters):
     K = int(clusters.max()) + 1
     counts = np.zeros(K)
     centroids = np.zeros((K, len(samples[0])))
     for i, cluster in enumerate(clusters):
         counts[cluster] += 1
         centroids[cluster] += samples[i]
     for i, centroid in enumerate(centroids):
         centroid /= counts[i]
     return centroids
   clusters.max() raises a ValueError on an empty array and len(samples[0])
   raises an IndexError on an empty sample set; theorems about this function
   assume clusters (and hence samples) non-empty, where the embedding is
   exact.  The loop pairs clusters[i] with samples[i], i.e. it walks the zip
   of the two lists (an assignment longer than the sample set would raise an
   IndexError; theorems carry the length hypothesis). -/
def get_centroids (samples : List Point) (clusters : List ℕ) : List Point :=
  let K : ℕ := clusters.foldl max 0 + 1
  let dim : ℕ := (samples.headD []).length
  let acc :=
    (samples.zip clusters).foldl accStep
      (List.replicate K 0, List.replicate K (List.replicate dim (some 0)))
  (acc.2.zip acc.1).map (fun ci => ci.1.map (fun x => OQ.div x (some (ci.2 : ℚ))))

/- def run_k_means(samples, initial_centroids, n_iter):
     centroid_history = []
     current_centroids = initial_centroids
     clusters = []
     for iteration in range(n_iter):
         centroid_history.append(current_centroids)
         clusters = find_closest_centroids(samples, current_centroids)
         current_centroids = get_centroids(samples, clusters)
     return clusters, centroid_history
   The fuel argument of the auxiliary function is the number of loop
   executions, len(range(n_iter)), which is n_iter when n_iter is positive
   and 0 otherwise (range of a non-positive integer is empty, so the function
   returns ([], []) without touching numpy). -/
def run_aux (samples : List Point) :
    ℕ → List Point → List ℕ → List (List Point) → List ℕ × List (List Point)
  | 0, _, clusters, history => (clusters, history)
  | n + 1, current, _, history =>
    let clusters := find_closest_centroids samples current
    run_aux samples n (get_centroids samples clusters) clusters (history ++ [current])

def run_k_means (samples initial_centroids : List Point) (n_iter : ℤ) :
    List ℕ × List (List Point) :=
  run_aux samples n_iter.toNat initial_centroids [] []

/- Runtime errors of the peripheral initializer. -/
inductive KErr : Type
  | indexError
deriving DecidableEq

/- def choose_random_centroids(samples, K):
     centroids = np.zeros((int(K), len(samples[0])))
     b = np.random.permutation(samples)
     for i in range(0, K):
         centroids[i] = b[i]
     return centroids
   The permuted sample list b is passed in explicitly (the spec: the core is
   deterministic given a fixed permutation).  The copy loop reads b[i] for
   every i < K, so it raises an IndexError exactly when K exceeds the number
   of samples, and otherwise the result rows are the first K permuted
   samples. -/
def choose_random_centroids (b : List Point) (K : ℕ) : Except KErr (List Point) :=
  if K ≤ b.length then Except.ok (b.take K) else Except.error KErr.indexError

/- One full iteration of the driver loop: assignment, then aggregation. -/
def kstep (samples C : List Point) : List Point :=
  get_centroids samples (find_closest_centroids samples C)

/- The centroid set current at the start of iteration n. -/
def kiter (samples : List Point) (n : ℕ) (C : List Point) : List Point :=
  (kstep samples)^[n] C

/- Squared euclidean distance on NaN-free rows, the rational value underlying
   sqdist on mkPoint inputs. -/
def sqdistQ (p q : List ℚ) : ℚ :=
  ((List.zipWith (fun a b => a - b) p q).map (fun x => x * x)).foldl (· + ·) 0

/- argmin restricted to NaN-free value lists. -/
def argminQAux : List ℚ → ℕ → ℚ → ℕ → ℕ
  | [], _, _, bi => bi
  | v :: rest, i, bv, bi =>
    if v < bv then argminQAux rest (i + 1) v i else argminQAux rest (i + 1) bv bi

def argminQ : List ℚ → ℕ
  | [] => 0
  | v :: rest => argminQAux rest 1 v 0

/- Modelled from the spec: the points of cluster c, the spec words being all
   points whose assignment equals c. -/
def clusterPoints (sQ : List (List ℚ)) (clusters : List ℕ) (c : ℕ) : List (List ℚ) :=
  ((sQ.zip clusters).filter (fun pc => pc.2 = c)).map Prod.fst

/- Modelled from the spec: the coordinate-wise arithmetic mean of the points
   of cluster c (sum of those points, divided by how many there are). -/
def clusterMean (sQ : List (List ℚ)) (clusters : List ℕ) (c : ℕ) : List ℚ :=
  let pts := clusterPoints sQ clusters c
  let s := pts.foldl (fun a p => List.zipWith (· + ·) a p)
    (List.replicate ((sQ.headD []).length) 0)
  s.map (fun x => x / ((pts.length : ℚ)))

/- Small computation helpers: list operations applied at numeral lengths and
   indices, so that simp can evaluate the concrete scenarios. -/

lemma replicate_one_eq (a : α) : List.replicate 1 a = [a] := rfl

lemma replicate_two_eq (a : α) : List.replicate 2 a = [a, a] := rfl

lemma replicate_three_eq (a : α) : List.replicate 3 a = [a, a, a] := rfl

lemma set_cons_zero_eq (a b : α) (l : List α) : (a :: l).set 0 b = b :: l := rfl

lemma set_cons_one_eq (a b c : α) (l : List α) :
    (a :: b :: l).set 1 c = a :: c :: l := rfl

lemma set_cons_two_eq (a b c d : α) (l : List α) :
    (a :: b :: c :: l).set 2 d = a :: b :: d :: l := rfl

lemma getD_cons_zero_eq (a d : α) (l : List α) : (a :: l).getD 0 d = a := rfl

lemma getD_cons_one_eq (a b d : α) (l : List α) : (a :: b :: l).getD 1 d = b := rfl

lemma getD_cons_two_eq (a b c d : α) (l : List α) :
    (a :: b :: c :: l).getD 2 d = c := rfl

lemma zip_cons_cons_eq (a : α) (b : β) (l : List α) (m : List β) :
    (a :: l).zip (b :: m) = (a, b) :: l.zip m := rfl

lemma zip_nil_eq (l : List α) : l.zip ([] : List β) = [] := by cases l <;> rfl

lemma nil_zip_eq (m : List β) : ([] : List α).zip m = [] := rfl

/- ----------------------------------------------------------------------
   Lemmas about argmin.
   ---------------------------------------------------------------------- -/

lemma argminAux_lt (rest : List OQ) :
    ∀ (i : ℕ) (bv : OQ) (bi : ℕ), bi < i → argminAux rest i bv bi < i + rest.length := by
  induction rest with
  | nil =>
    intro i bv bi h
    simp only [argminAux, List.length_nil]
    omega
  | cons v r ih =>
    intro i bv bi h
    simp only [argminAux, List.length_cons]
    by_cases hlt : OQ.lt v bv = true
    · rw [if_pos hlt]
      have hrec := ih (i + 1) v i (Nat.lt_succ_self i)
      omega
    · rw [if_neg hlt]
      have hrec := ih (i + 1) bv bi (h.trans (Nat.lt_succ_self i))
      omega

lemma argmin_lt (l : List OQ) (h : l ≠ []) : argmin l < l.length := by
  cases l with
  | nil => exact absurd rfl h
  | cons v rest =>
    have := argminAux_lt rest 1 v 0 Nat.one_pos
    simpa [argmin, Nat.add_comm] using this

lemma argminAux_map_some (l : List ℚ) :
    ∀ (i : ℕ) (b : ℚ) (bi : ℕ),
      argminAux (l.map some) i (some b) bi = argminQAux l i b bi := by
  induction l with
  | nil => intro i b bi; rfl
  | cons v r ih =>
    intro i b bi
    by_cases hlt : v < b
    · simp [argminAux, argminQAux, OQ.lt, hlt, ih]
    · simp [argminAux, argminQAux, OQ.lt, hlt, ih]

lemma argmin_map_some (l : List ℚ) : argmin (l.map some) = argminQ l := by
  cases l with
  | nil => rfl
  | cons v r => simpa [argmin, argminQ] using argminAux_map_some r 1 v 0

/- First-minimum characterization of argminQAux: its result is either the
   incoming best index bi together with the fact that the best value bv is a
   lower bound of the list, or a position i + j inside the list whose value is
   strictly below bv, is a lower bound of the list, and is strictly below
   every earlier value of the list. -/
lemma argminQAux_spec (l : List ℚ) :
    ∀ (i : ℕ) (bv : ℚ) (bi : ℕ), bi < i →
      (argminQAux l i bv bi = bi ∧ ∀ j, j < l.length → bv ≤ l.getD j 0) ∨
      (∃ j, j < l.length ∧ argminQAux l i bv bi = i + j ∧
        l.getD j 0 < bv ∧
        (∀ k, k < l.length → l.getD j 0 ≤ l.getD k 0) ∧
        (∀ k, k < j → l.getD j 0 < l.getD k 0)) := by
  induction l with
  | nil =>
    intro i bv bi _
    exact Or.inl ⟨rfl, fun j hj => absurd hj (Nat.not_lt_zero j)⟩
  | cons v r ih =>
    intro i bv bi hbi
    have hunfold : argminQAux (v :: r) i bv bi
        = if v < bv then argminQAux r (i + 1) v i else argminQAux r (i + 1) bv bi := rfl
    by_cases hlt : v < bv
    · rw [hunfold, if_pos hlt]
      have hrec := ih (i + 1) v i (Nat.lt_succ_self i)
      rcases hrec with ⟨heq, hlb⟩ | ⟨j, hj, heq, hjv, hjlb, hjstrict⟩
      · refine Or.inr ⟨0, Nat.succ_pos _, ?_, ?_, ?_, ?_⟩
        · rw [heq]; omega
        · simpa [List.getD_cons_zero] using hlt
        · intro k hk
          cases k with
          | zero => simp [List.getD_cons_zero]
          | succ k' =>
            rw [List.getD_cons_zero, List.getD_cons_succ]
            exact hlb k' (by simpa [List.length_cons] using hk)
        · intro k hk; exact absurd hk (Nat.not_lt_zero k)
      · refine Or.inr ⟨j + 1, ?_, ?_, ?_, ?_, ?_⟩
        · simp only [List.length_cons]; omega
        · rw [heq]; omega
        · rw [List.getD_cons_succ]; exact hjv.trans hlt
        · intro k hk
          cases k with
          | zero =>
            rw [List.getD_cons_succ, List.getD_cons_zero]
            exact le_of_lt hjv
          | succ k' =>
            rw [List.getD_cons_succ, List.getD_cons_succ]
            exact hjlb k' (by simpa [List.length_cons] using hk)
        · intro k hk
          cases k with
          | zero =>
            rw [List.getD_cons_succ, List.getD_cons_zero]
            exact hjv
          | succ k' =>
            rw [List.getD_cons_succ, List.getD_cons_succ]
            exact hjstrict k' (Nat.lt_of_succ_lt_succ hk)
    · have hble : bv ≤ v := le_of_not_lt hlt
      rw [hunfold, if_neg hlt]
      have hrec := ih (i + 1) bv bi (hbi.trans (Nat.lt_succ_self i))
      rcases hrec with ⟨heq, hlb⟩ | ⟨j, hj, heq, hjv, hjlb, hjstrict⟩
      · refine Or.inl ⟨heq, ?_⟩
        intro j hjlen
        cases j with
        | zero => simpa [List.getD_cons_zero] using hble
        | succ j' =>
          rw [List.getD_cons_succ]
          exact hlb j' (by simpa [List.length_cons] using hjlen)
      · refine Or.inr ⟨j + 1, ?_, ?_, ?_, ?_, ?_⟩
        · simp only [List.length_cons]; omega
        · rw [heq]; omega
        · rw [List.getD_cons_succ]; exact hjv
        · intro k hk
          cases k with
          | zero =>
            rw [List.getD_cons_succ, List.getD_cons_zero]
            exact le_of_lt (hjv.trans_le hble)
          | succ k' =>
            rw [List.getD_cons_succ, List.getD_cons_succ]
            exact hjlb k' (by simpa [List.length_cons] using hk)
        · intro k hk
          cases k with
          | zero =>
            rw [List.getD_cons_succ, List.getD_cons_zero]
            exact hjv.trans_le hble
          | succ k' =>
            rw [List.getD_cons_succ, List.getD_cons_succ]
            exact hjstrict k' (Nat.lt_of_succ_lt_succ hk)

/- argminQ returns the position of the first minimum: a position inside the
   list whose value is a lower bound of the whole list, every earlier value
   being strictly larger. -/
lemma argminQ_spec (l : List ℚ) (h : l ≠ []) :
    argminQ l < l.length ∧
    (∀ j, j < l.length → l.getD (argminQ l) 0 ≤ l.getD j 0) ∧
    (∀ j, j < argminQ l → l.getD (argminQ l) 0 < l.getD j 0) := by
  cases l with
  | nil => exact absurd rfl h
  | cons v r =>
    have hq : argminQ (v :: r) = argminQAux r 1 v 0 := rfl
    rcases argminQAux_spec r 1 v 0 Nat.one_pos with ⟨heq, hlb⟩ | ⟨j, hj, heq, hjv, hjlb, hjstrict⟩
    · have hidx : argminQ (v :: r) = 0 := by rw [hq, heq]
      refine ⟨?_, ?_, ?_⟩
      · rw [hidx]; simp [List.length_cons]
      · intro j hjlen
        cases j with
        | zero => rw [hidx]
        | succ j' =>
          rw [hidx, List.getD_cons_zero, List.getD_cons_succ]
          exact hlb j' (by simpa [List.length_cons] using hjlen)
      · intro j hjlt
        rw [hidx] at hjlt
        exact absurd hjlt (Nat.not_lt_zero j)
    · have hidx : argminQ (v :: r) = j + 1 := by rw [hq, heq]; omega
      refine ⟨?_, ?_, ?_⟩
      · rw [hidx]; simp only [List.length_cons]; omega
      · intro k hk
        cases k with
        | zero =>
          rw [hidx, List.getD_cons_succ, List.getD_cons_zero]
          exact le_of_lt hjv
        | succ k' =>
          rw [hidx, List.getD_cons_succ, List.getD_cons_succ]
          exact hjlb k' (by simpa [List.length_cons] using hk)
      · intro k hk
        rw [hidx] at hk
        cases k with
        | zero =>
          rw [hidx, List.getD_cons_succ, List.getD_cons_zero]
          exact hjv
        | succ k' =>
          rw [hidx, List.getD_cons_succ, List.getD_cons_succ]
          exact hjstrict k' (Nat.lt_of_succ_lt_succ hk)

/- ----------------------------------------------------------------------
   NaN-free inputs: sqdist and find_closest_centroids on mkPoint rows.
   ---------------------------------------------------------------------- -/

lemma zipWith_sub_map_some (p : List ℚ) :
    ∀ q : List ℚ,
      List.zipWith OQ.sub (p.map some) (q.map some)
        = (List.zipWith (fun a b => a - b) p q).map some := by
  induction p with
  | nil => intro q; simp
  | cons a p ih =>
    intro q
    cases q with
    | nil => simp
    | cons b q => simp [OQ.sub, ih]

lemma foldl_add_map_some (l : List ℚ) :
    ∀ a : ℚ, (l.map some).foldl OQ.add (some a) = some (l.foldl (· + ·) a) := by
  induction l with
  | nil => intro a; rfl
  | cons x l ih => intro a; simp [OQ.add, ih]

lemma sqdist_mkPoint (p q : List ℚ) : sqdist (mkPoint p) (mkPoint q) = some (sqdistQ p q) := by
  unfold sqdist sqdistQ mkPoint
  rw [zipWith_sub_map_some]
  rw [List.map_map]
  have hcomp :
      ((fun x => OQ.mul x x) ∘ some) = (some ∘ fun x : ℚ => x * x) := by
    funext x; simp [OQ.mul, Function.comp]
  rw [hcomp, ← List.map_map]
  exact foldl_add_map_some _ 0

lemma find_closest_mkPoints (sQ cQ : List (List ℚ)) :
    find_closest_centroids (mkPoints sQ) (mkPoints cQ)
      = sQ.map (fun p => argminQ (cQ.map (fun c => sqdistQ p c))) := by
  unfold find_closest_centroids mkPoints
  rw [List.map_map]
  refine List.map_congr_left ?_
  intro p _
  simp only [Function.comp]
  rw [List.map_map]
  have hcomp :
      ((fun c => sqdist (mkPoint p) c) ∘ mkPoint)
        = (some ∘ fun c : List ℚ => sqdistQ p c) := by
    funext c; simp [Function.comp, sqdist_mkPoint]
  rw [hcomp, ← List.map_map]
  exact argmin_map_some _

/- ----------------------------------------------------------------------
   The driver loop: run_aux in closed form.
   ---------------------------------------------------------------------- -/

lemma kiter_zero (samples C : List Point) : kiter samples 0 C = C := rfl

lemma kiter_succ (samples : List Point) (n : ℕ) (C : List Point) :
    kiter samples (n + 1) C = kiter samples n (kstep samples C) :=
  Function.iterate_succ_apply (kstep samples) n C

lemma kiter_fixed (samples C : List Point) (h : kstep samples C = C) (n : ℕ) :
    kiter samples n C = C :=
  Function.iterate_fixed h n

/- The loop of run_k_means in closed form: the returned assignment is the one
   computed from the centroid set current in the last executed iteration, and
   the history collects exactly the centroid sets current at the start of each
   iteration. -/
lemma run_aux_spec (samples : List Point) :
    ∀ (n : ℕ) (C : List Point) (cl : List ℕ) (hist : List (List Point)),
      run_aux samples n C cl hist
        = (if n = 0 then cl else find_closest_centroids samples (kiter samples (n - 1) C),
           hist ++ (List.range n).map (fun i => kiter samples i C)) := by
  intro n
  induction n with
  | zero => intro C cl hist; simp [run_aux]
  | succ m ih =>
    intro C cl hist
    have hstep : run_aux samples (m + 1) C cl hist
        = run_aux samples m (kstep samples C) (find_closest_centroids samples C)
            (hist ++ [C]) := rfl
    rw [hstep, ih]
    simp only [Prod.mk.injEq]
    refine ⟨?_, ?_⟩
    · cases m with
      | zero => simp [kiter_zero]
      | succ k =>
        simp only [Nat.succ_ne_zero, if_false, Nat.succ_sub_one]
        rw [← kiter_succ]
    · rw [List.append_assoc, List.singleton_append, List.range_succ_eq_map,
        List.map_cons, List.map_map]
      have hfun : ((fun i => kiter samples i C) ∘ Nat.succ)
          = fun i => kiter samples i (kstep samples C) := by
        funext i
        simp only [Function.comp]
        exact kiter_succ samples i C
      rw [hfun, kiter_zero]

/- ----------------------------------------------------------------------
   The accumulation loop of get_centroids.
   ---------------------------------------------------------------------- -/

lemma getD_set_self (l : List α) :
    ∀ (c : ℕ) (v d : α), c < l.length → (l.set c v).getD c d = v := by
  induction l with
  | nil => intro c v d h; exact absurd h (by simp)
  | cons a t ih =>
    intro c v d h
    cases c with
    | zero => rfl
    | succ c' => exact ih c' v d (Nat.lt_of_succ_lt_succ h)

lemma getD_set_ne (l : List α) :
    ∀ (j c : ℕ) (v d : α), j ≠ c → (l.set j v).getD c d = l.getD c d := by
  induction l with
  | nil => intro j c v d _; rfl
  | cons a t ih =>
    intro j c v d hne
    cases j with
    | zero =>
      cases c with
      | zero => exact absurd rfl hne
      | succ c' => rfl
    | succ j' =>
      cases c with
      | zero => rfl
      | succ c' => exact ih j' c' v d (fun h => hne (congrArg Nat.succ h))

lemma foldl_accStep_lengths :
    ∀ (l : List (Point × ℕ)) (acc : List ℕ × List Point),
      (l.foldl accStep acc).1.length = acc.1.length ∧
      (l.foldl accStep acc).2.length = acc.2.length := by
  intro l
  induction l with
  | nil => intro acc; exact ⟨rfl, rfl⟩
  | cons x t ih =>
    intro acc
    have h := ih (accStep acc x)
    simpa [accStep, List.length_set] using h

/- After the accumulation loop, entry c of counts has grown by the number of
   pairs assigned to cluster c, and entry c of the running sums has absorbed
   exactly the points of those pairs, in order. -/
lemma foldl_accStep_getD :
    ∀ (l : List (Point × ℕ)) (counts : List ℕ) (cents : List Point) (c : ℕ),
      c < counts.length → c < cents.length →
      (l.foldl accStep (counts, cents)).1.getD c 0
          = counts.getD c 0 + (l.filter (fun x => x.2 = c)).length ∧
      (l.foldl accStep (counts, cents)).2.getD c []
          = (l.filter (fun x => x.2 = c)).foldl (fun a x => vadd a x.1)
              (cents.getD c []) := by
  intro l
  induction l with
  | nil => intro counts cents c _ _; exact ⟨rfl, rfl⟩
  | cons x t ih =>
    intro counts cents c hc1 hc2
    have hfold : ((x :: t).foldl accStep (counts, cents))
        = t.foldl accStep (accStep (counts, cents) x) := rfl
    have hstep : accStep (counts, cents) x
        = (counts.set x.2 (counts.getD x.2 0 + 1),
           cents.set x.2 (vadd (cents.getD x.2 []) x.1)) := rfl
    by_cases hx : x.2 = c
    · have hlt1 : c < (counts.set x.2 (counts.getD x.2 0 + 1)).length := by
        simpa [List.length_set] using hc1
      have hlt2 : c < (cents.set x.2 (vadd (cents.getD x.2 []) x.1)).length := by
        simpa [List.length_set] using hc2
      have hrec := ih (counts.set x.2 (counts.getD x.2 0 + 1))
        (cents.set x.2 (vadd (cents.getD x.2 []) x.1)) c hlt1 hlt2
      have hget1 : (counts.set x.2 (counts.getD x.2 0 + 1)).getD c 0
          = counts.getD c 0 + 1 := by
        rw [hx]
        exact getD_set_self counts c _ 0 hc1
      have hget2 : (cents.set x.2 (vadd (cents.getD x.2 []) x.1)).getD c []
          = vadd (cents.getD c []) x.1 := by
        rw [hx]
        exact getD_set_self cents c _ [] hc2
      have hfilter : (x :: t).filter (fun y => y.2 = c)
          = x :: t.filter (fun y => y.2 = c) := by
        simp [List.filter_cons, hx]
      rw [hfold, hstep]
      refine ⟨?_, ?_⟩
      · rw [hrec.1, hget1, hfilter]
        simp only [List.length_cons]
        omega
      · rw [hrec.2, hget2, hfilter]
        rfl
    · have hlt1 : c < (counts.set x.2 (counts.getD x.2 0 + 1)).length := by
        simpa [List.length_set] using hc1
      have hlt2 : c < (cents.set x.2 (vadd (cents.getD x.2 []) x.1)).length := by
        simpa [List.length_set] using hc2
      have hrec := ih (counts.set x.2 (counts.getD x.2 0 + 1))
        (cents.set x.2 (vadd (cents.getD x.2 []) x.1)) c hlt1 hlt2
      have hget1 : (counts.set x.2 (counts.getD x.2 0 + 1)).getD c 0
          = counts.getD c 0 := getD_set_ne counts x.2 c _ 0 hx
      have hget2 : (cents.set x.2 (vadd (cents.getD x.2 []) x.1)).getD c []
          = cents.getD c [] := getD_set_ne cents x.2 c _ [] hx
      have hfilter : (x :: t).filter (fun y => y.2 = c)
          = t.filter (fun y => y.2 = c) := by
        simp [List.filter_cons, hx]
      rw [hfold, hstep]
      refine ⟨?_, ?_⟩
      · rw [hrec.1, hget1, hfilter]
      · rw [hrec.2, hget2, hfilter]

lemma le_foldl_max : ∀ (l : List ℕ) (a : ℕ), a ≤ l.foldl max a := by
  intro l
  induction l with
  | nil => intro a; exact le_refl a
  | cons y t ih =>
    intro a
    exact le_trans (le_max_left a y) (ih (max a y))

lemma mem_le_foldl_max : ∀ (l : List ℕ) (a x : ℕ), x ∈ l → x ≤ l.foldl max a := by
  intro l
  induction l with
  | nil => intro a x hx; exact absurd hx (List.not_mem_nil x)
  | cons y t ih =>
    intro a x hx
    rcases List.mem_cons.mp hx with h | h
    · subst h
      exact le_trans (le_max_right a x) (le_foldl_max t (max a x))
    · exact ih (max a y) x h

lemma getElem?_map_zip (f : α × β → γ) :
    ∀ (A : List α) (B : List β) (c : ℕ) (da : α) (db : β),
      c < A.length → c < B.length →
      ((A.zip B).map f)[c]? = some (f (A.getD c da, B.getD c db)) := by
  intro A
  induction A with
  | nil => intro B c da db h _; exact absurd h (by simp)
  | cons a t ih =>
    intro B c da db hA hB
    cases B with
    | nil => exact absurd hB (by simp)
    | cons b u =>
      cases c with
      | zero => simp [zip_cons_cons_eq, List.getD_cons_zero]
      | succ c' =>
        have := ih u c' da db (Nat.lt_of_succ_lt_succ hA) (Nat.lt_of_succ_lt_succ hB)
        simpa [zip_cons_cons_eq, List.getD_cons_succ] using this

lemma zip_map_left_pair (f : α → γ) :
    ∀ (A : List α) (B : List β),
      (A.map f).zip B = (A.zip B).map (fun x => (f x.1, x.2)) := by
  intro A
  induction A with
  | nil => intro B; rfl
  | cons a t ih =>
    intro B
    cases B with
    | nil => rfl
    | cons b u => simp [zip_cons_cons_eq, ih]

lemma snd_zip_eq : ∀ (A : List α) (B : List β),
    B.length ≤ A.length → (A.zip B).map Prod.snd = B := by
  intro A
  induction A with
  | nil =>
    intro B h
    have : B = [] := List.length_eq_zero.mp (Nat.le_zero.mp (by simpa using h))
    simp [this]
  | cons a t ih =>
    intro B h
    cases B with
    | nil => rfl
    | cons b u =>
      simp only [zip_cons_cons_eq, List.map_cons]
      rw [ih u (by simpa [List.length_cons] using h)]

lemma vadd_mkPoint (a : List ℚ) :
    ∀ p : List ℚ, vadd (mkPoint a) (mkPoint p) = mkPoint (List.zipWith (· + ·) a p) := by
  induction a with
  | nil => intro p; rfl
  | cons x t ih =>
    intro p
    cases p with
    | nil => rfl
    | cons y u => simp [vadd, mkPoint, OQ.add, List.zipWith] at ih ⊢; exact ih u

lemma foldl_vadd_mkPoint :
    ∀ (pts : List (List ℚ)) (a : List ℚ),
      pts.foldl (fun acc p => vadd acc (mkPoint p)) (mkPoint a)
        = mkPoint (pts.foldl (fun acc p => List.zipWith (· + ·) acc p) a) := by
  intro pts
  induction pts with
  | nil => intro a; rfl
  | cons p t ih =>
    intro a
    simp only [List.foldl_cons]
    rw [vadd_mkPoint, ih]

lemma headD_mkPoints (ps : List (List ℚ)) :
    (mkPoints ps).headD [] = mkPoint (ps.headD []) := by
  cases ps with
  | nil => rfl
  | cons p t => rfl

lemma length_mkPoint (p : List ℚ) : (mkPoint p).length = p.length := by
  simp [mkPoint]

/- The number of entries of the get_centroids output: one per cluster id up to
   the largest id occurring in the assignment, i.e. max(clusters) + 1, never
   the number K of centroids the driver is working with. -/
lemma get_centroids_length (samples : List Point) (clusters : List ℕ) :
    (get_centroids samples clusters).length = clusters.foldl max 0 + 1 := by
  have hlen := foldl_accStep_lengths (samples.zip clusters)
    (List.replicate (clusters.foldl max 0 + 1) 0,
     List.replicate (clusters.foldl max 0 + 1)
       (List.replicate ((samples.headD []).length) (some 0)))
  simp only [get_centroids]
  rw [List.length_map, List.length_zip, hlen.1, hlen.2]
  simp [List.length_replicate]


lemma getD_replicate_lt (x d : α) : ∀ (n c : ℕ), c < n → (List.replicate n x).getD c d = x := by
  intro n
  induction n with
  | zero => intro c h; exact absurd h (Nat.not_lt_zero c)
  | succ m ih =>
    intro c h
    cases c with
    | zero => rfl
    | succ c' => exact ih c' (Nat.lt_of_succ_lt_succ h)

lemma filter_map_mkPair (c : ℕ) :
    ∀ l : List (List ℚ × ℕ),
      (l.map (fun x => (mkPoint x.1, x.2))).filter (fun y => y.2 = c)
        = (l.filter (fun y => y.2 = c)).map (fun x => (mkPoint x.1, x.2)) := by
  intro l
  induction l with
  | nil => rfl
  | cons x t ih =>
    by_cases hx : x.2 = c
    · simp only [List.map_cons, List.filter_cons]
      simp [hx, ih]
    · simp only [List.map_cons, List.filter_cons]
      simp [hx, ih]

lemma map_div_mkPoint (S : List ℚ) (n : ℕ) (hn : n ≠ 0) :
    (mkPoint S).map (fun x => OQ.div x (some ((n : ℕ) : ℚ)))
      = mkPoint (S.map (fun x => x / ((n : ℕ) : ℚ))) := by
  unfold mkPoint
  rw [List.map_map, List.map_map]
  refine List.map_congr_left ?_
  intro x _
  simp only [Function.comp]
  have : ((n : ℚ)) ≠ 0 := by
    simpa [Nat.cast_eq_zero] using hn
  simp [OQ.div, this]

/- Entry c of the get_centroids output, for a cluster id c that occurs in the
   assignment: the coordinate-wise arithmetic mean of the points assigned to
   c.  Stated over NaN-free (rational) sample rows. -/
lemma get_centroids_mkPoints_mean (sQ : List (List ℚ)) (clusters : List ℕ) (c : ℕ)
    (hmem : c ∈ clusters) (hlen : clusters.length ≤ sQ.length) :
    (get_centroids (mkPoints sQ) clusters)[c]?
      = some (mkPoint (clusterMean sQ clusters c)) := by
  have hcK : c < clusters.foldl max 0 + 1 :=
    Nat.lt_succ_of_le (mem_le_foldl_max clusters 0 c hmem)
  have hzip : (mkPoints sQ).zip clusters
      = (sQ.zip clusters).map (fun x => (mkPoint x.1, x.2)) := by
    exact zip_map_left_pair mkPoint sQ clusters
  have hdeq : ((mkPoints sQ).headD []).length = (sQ.headD []).length := by
    rw [headD_mkPoints, length_mkPoint]
  -- the accumulator reached by the loop
  have hlens := foldl_accStep_lengths ((mkPoints sQ).zip clusters)
    (List.replicate (clusters.foldl max 0 + 1) 0,
     List.replicate (clusters.foldl max 0 + 1)
       (List.replicate (((mkPoints sQ).headD []).length) (some 0)))
  have hacc := foldl_accStep_getD ((mkPoints sQ).zip clusters)
    (List.replicate (clusters.foldl max 0 + 1) 0)
    (List.replicate (clusters.foldl max 0 + 1)
      (List.replicate (((mkPoints sQ).headD []).length) (some 0)))
    c (by simpa [List.length_replicate] using hcK)
    (by simpa [List.length_replicate] using hcK)
  -- the filtered zip, upstairs and downstairs
  have hfilter : ((mkPoints sQ).zip clusters).filter (fun y => y.2 = c)
      = ((sQ.zip clusters).filter (fun y => y.2 = c)).map (fun x => (mkPoint x.1, x.2)) := by
    rw [hzip]; exact filter_map_mkPair c (sQ.zip clusters)
  -- the count of cluster c is positive
  have hmem' : ∃ y, y ∈ (sQ.zip clusters).filter (fun y => y.2 = c) := by
    have hsnd : ((sQ.zip clusters).map Prod.snd) = clusters := snd_zip_eq sQ clusters hlen
    have : c ∈ (sQ.zip clusters).map Prod.snd := by rw [hsnd]; exact hmem
    rcases List.mem_map.mp this with ⟨y, hy, hyc⟩
    exact ⟨y, List.mem_filter.mpr ⟨hy, by simpa using hyc⟩⟩
  have hpos : 0 < ((sQ.zip clusters).filter (fun y => y.2 = c)).length := by
    rcases hmem' with ⟨y, hy⟩
    exact List.length_pos.mpr (List.ne_nil_of_mem hy)
  -- entry c of the final counts and sums
  have hcount : (((mkPoints sQ).zip clusters).foldl accStep
      (List.replicate (clusters.foldl max 0 + 1) 0,
       List.replicate (clusters.foldl max 0 + 1)
         (List.replicate (((mkPoints sQ).headD []).length) (some 0)))).1.getD c 0
      = ((sQ.zip clusters).filter (fun y => y.2 = c)).length := by
    rw [hacc.1, getD_replicate_lt _ _ _ _ hcK, hfilter, List.length_map]
    omega
  have hsum : (((mkPoints sQ).zip clusters).foldl accStep
      (List.replicate (clusters.foldl max 0 + 1) 0,
       List.replicate (clusters.foldl max 0 + 1)
         (List.replicate (((mkPoints sQ).headD []).length) (some 0)))).2.getD c []
      = mkPoint ((clusterPoints sQ clusters c).foldl
          (fun a p => List.zipWith (· + ·) a p)
          (List.replicate ((sQ.headD []).length) 0)) := by
    rw [hacc.2, getD_replicate_lt _ _ _ _ hcK, hfilter]
    rw [List.foldl_map]
    have hbase : List.replicate (((mkPoints sQ).headD []).length) ((some 0 : OQ))
        = mkPoint (List.replicate ((sQ.headD []).length) 0) := by
      rw [hdeq]
      simp [mkPoint, List.map_replicate]
    rw [hbase]
    have hfoldfst :
        ((sQ.zip clusters).filter (fun y => y.2 = c)).foldl
            (fun a x => vadd a (mkPoint x.1)) (mkPoint (List.replicate ((sQ.headD []).length) 0))
          = (clusterPoints sQ clusters c).foldl
              (fun a p => vadd a (mkPoint p)) (mkPoint (List.replicate ((sQ.headD []).length) 0)) := by
      unfold clusterPoints
      rw [List.foldl_map]
    rw [hfoldfst, foldl_vadd_mkPoint]
  -- entry c of the output
  simp only [get_centroids]
  rw [getElem?_map_zip _ _ _ c [] 0
    (by rw [hlens.2]; simpa [List.length_replicate] using hcK)
    (by rw [hlens.1]; simpa [List.length_replicate] using hcK)]
  rw [hcount, hsum]
  rw [map_div_mkPoint _ _ (Nat.pos_iff_ne_zero.mp hpos)]
  unfold clusterMean
  have hplen : (clusterPoints sQ clusters c).length
      = ((sQ.zip clusters).filter (fun y => y.2 = c)).length := by
    unfold clusterPoints
    rw [List.length_map]
  rw [← hplen]

lemma filter_snd_eq_nil (c : ℕ) :
    ∀ l : List (Point × ℕ), (∀ y, y ∈ l → y.2 ≠ c) →
      l.filter (fun y => y.2 = c) = [] := by
  intro l
  induction l with
  | nil => intro _; rfl
  | cons x t ih =>
    intro h
    rw [List.filter_cons]
    have hx : ¬ x.2 = c := h x (List.mem_cons_self x t)
    simp [hx, ih (fun y hy => h y (List.mem_cons_of_mem x hy))]

/- Entry c of the get_centroids output, for a cluster id c below the derived
   count that has no assigned point: the zero sum divided by the zero count,
   i.e. a row of undefined (NaN) coordinates. -/
lemma get_centroids_empty_cluster_entry (samples : List Point) (clusters : List ℕ)
    (c : ℕ) (hcK : c ≤ clusters.foldl max 0) (hnot : c ∉ clusters) :
    (get_centroids samples clusters)[c]?
      = some (List.replicate ((samples.headD []).length) none) := by
  have hcK' : c < clusters.foldl max 0 + 1 := Nat.lt_succ_of_le hcK
  have hlens := foldl_accStep_lengths (samples.zip clusters)
    (List.replicate (clusters.foldl max 0 + 1) 0,
     List.replicate (clusters.foldl max 0 + 1)
       (List.replicate ((samples.headD []).length) (some 0)))
  have hacc := foldl_accStep_getD (samples.zip clusters)
    (List.replicate (clusters.foldl max 0 + 1) 0)
    (List.replicate (clusters.foldl max 0 + 1)
      (List.replicate ((samples.headD []).length) (some 0)))
    c (by simpa [List.length_replicate] using hcK')
    (by simpa [List.length_replicate] using hcK')
  have hmemzip : ∀ y, y ∈ samples.zip clusters → y.2 ≠ c := by
    intro y hy hyc
    obtain ⟨y1, y2⟩ := y
    exact hnot (hyc ▸ (List.mem_zip hy).2)
  have hfilt : (samples.zip clusters).filter (fun y => y.2 = c) = [] :=
    filter_snd_eq_nil c (samples.zip clusters) hmemzip
  simp only [get_centroids]
  rw [getElem?_map_zip _ _ _ c [] 0
    (by rw [hlens.2]; simpa [List.length_replicate] using hcK')
    (by rw [hlens.1]; simpa [List.length_replicate] using hcK')]
  rw [hacc.1, hacc.2, hfilt, getD_replicate_lt _ _ _ _ hcK',
    getD_replicate_lt _ _ _ _ hcK']
  simp [List.map_replicate, OQ.div]

lemma map_const_replicate (b : β) :
    ∀ l : List α, l.map (fun _ => b) = List.replicate l.length b := by
  intro l
  induction l with
  | nil => rfl
  | cons x t ih => simp [List.replicate, ih]

lemma getD_map_lt (f : α → β) (d : α) (d2 : β) :
    ∀ (l : List α) (i : ℕ), i < l.length → (l.map f).getD i d2 = f (l.getD i d) := by
  intro l
  induction l with
  | nil => intro i h; exact absurd h (by simp)
  | cons x t ih =>
    intro i h
    cases i with
    | zero => rfl
    | succ i' => exact ih i' (Nat.lt_of_succ_lt_succ h)

/- ----------------------------------------------------------------------
   The claims.
   ---------------------------------------------------------------------- -/

/-- Claim C1: the spec requires get_centroids to fail with EmptyCluster when a
cluster id in [0,K) has no assigned points, instead of returning a
NaN/undefined centroid.  The code does the opposite: in the concrete K=3
scenario below, the initial centroids leave cluster 1 empty (the assignment is
[0, 2]), and get_centroids divides the zero sum of cluster 1 by its zero
count, returning a centroid set whose entry 1 has undefined (NaN, here none)
coordinates, with no error of any kind.  This confirms the defect the spec
itself flags in the reference code; the claim describes the intended
behaviour, the code deviates from it. -/
theorem c1_empty_cluster_yields_nan_not_error :
    find_closest_centroids (mkPoints [[0,0],[10,10]])
        (mkPoints [[0,0],[100,100],[10,10]]) = [0, 2]
    ∧ get_centroids (mkPoints [[0,0],[10,10]]) [0, 2]
        = [[some 0, some 0], [none, none], [some 10, some 10]] := by
  constructor
  · norm_num [find_closest_centroids, mkPoints, mkPoint, argmin, argminAux, sqdist,
      OQ.lt, OQ.add, OQ.sub, OQ.mul]
  · norm_num [get_centroids, accStep, vadd, mkPoints, mkPoint,
      OQ.add, OQ.div, replicate_one_eq, replicate_two_eq, replicate_three_eq,
      set_cons_zero_eq, set_cons_one_eq, set_cons_two_eq,
      getD_cons_zero_eq, getD_cons_one_eq, getD_cons_two_eq,
      zip_cons_cons_eq, zip_nil_eq, nil_zip_eq]

/-- Claim C2, counterexample: with points [(0,0),(1,1)] and assignment [0,0],
every assignment value lies in [0,2), yet the aggregate output does not have
k = 2 entries (it has max(assignment)+1 = 1). -/
theorem c2_exactly_k_entries_counterexample :
    ¬ (get_centroids (mkPoints [[0,0],[1,1]]) [0,0]).length = 2 := by
  rw [get_centroids_length]
  decide

/-- Claim C2 (amended): get_centroids derives the number of clusters
internally as max(assignment) + 1 and returns exactly that many entries,
ordered by cluster id: entry c corresponds to cluster id c, being the
coordinate-wise mean of the points assigned to c when cluster c has at least
one point, and the row of undefined (NaN) coordinates when cluster c is
empty.  The output therefore has exactly k entries only when cluster id k-1
occurs in the assignment, not regardless of which cluster ids occur. -/
theorem c2_num_entries_amended :
    (∀ (samples : List Point) (clusters : List ℕ), clusters ≠ [] →
        (get_centroids samples clusters).length = clusters.foldl max 0 + 1)
    ∧ (∀ (sQ : List (List ℚ)) (clusters : List ℕ) (c : ℕ),
        clusters.length = sQ.length → c ∈ clusters →
        (get_centroids (mkPoints sQ) clusters)[c]?
          = some (mkPoint (clusterMean sQ clusters c)))
    ∧ (∀ (samples : List Point) (clusters : List ℕ) (c : ℕ),
        c ≤ clusters.foldl max 0 → c ∉ clusters →
        (get_centroids samples clusters)[c]?
          = some (List.replicate ((samples.headD []).length) none)) :=
  ⟨fun samples clusters _ => get_centroids_length samples clusters,
   fun sQ clusters c hlen hmem =>
     get_centroids_mkPoints_mean sQ clusters c hmem (le_of_eq hlen),
   fun samples clusters c hcK hnot =>
     get_centroids_empty_cluster_entry samples clusters c hcK hnot⟩

/-- Witness for claim C2 (amended).  Entry count: assignment [0,0] gives
max+1 = 1 entry.  Order, occupied entry: with points [(0,0),(4,4)] and
assignment [0,1], entry 1 is cluster 1's mean, (4,4).  Order, empty entry:
with points [(0,0),(10,10)] and assignment [0,2], entry 1 is the NaN row of
the empty cluster 1. -/
theorem c2_num_entries_amended_witness :
    (([0,0] : List ℕ) ≠ []
      ∧ (get_centroids (mkPoints [[0,0],[1,1]]) [0,0]).length
          = ([0,0] : List ℕ).foldl max 0 + 1)
    ∧ (([0,1] : List ℕ).length = ([[0,0],[4,4]] : List (List ℚ)).length
      ∧ (1 : ℕ) ∈ ([0,1] : List ℕ)
      ∧ (get_centroids (mkPoints [[0,0],[4,4]]) [0,1])[1]?
          = some (mkPoint (clusterMean [[0,0],[4,4]] [0,1] 1))
      ∧ clusterMean [[0,0],[4,4]] [0,1] 1 = [4, 4])
    ∧ ((1 : ℕ) ≤ ([0,2] : List ℕ).foldl max 0
      ∧ (1 : ℕ) ∉ ([0,2] : List ℕ)
      ∧ (get_centroids (mkPoints [[0,0],[10,10]]) [0,2])[1]?
          = some (List.replicate (((mkPoints [[0,0],[10,10]]).headD []).length) none)) := by
  refine ⟨⟨by decide,
      c2_num_entries_amended.1 (mkPoints [[0,0],[1,1]]) [0,0] (by decide)⟩,
    ⟨by decide, by decide,
      c2_num_entries_amended.2.1 [[0,0],[4,4]] [0,1] 1 (by decide) (by decide), ?_⟩,
    ⟨by decide, by decide,
      c2_num_entries_amended.2.2 (mkPoints [[0,0],[10,10]]) [0,2] 1 (by decide) (by decide)⟩⟩
  norm_num [clusterMean, clusterPoints, zip_cons_cons_eq, zip_nil_eq, nil_zip_eq,
    replicate_one_eq, replicate_two_eq]

/-- Claim C5: on points {(1,1),(1,2),(9,9),(9,8)} with initial centroids
{(0,0),(10,10)}, K=2 and one iteration, the run returns the assignment
[0,0,1,1] (with history = [initial centroids]), and aggregating that
assignment yields the centroids [(1, 3/2), (9, 17/2)]. -/
theorem c5_concrete_scenario :
    run_k_means (mkPoints [[1,1],[1,2],[9,9],[9,8]]) (mkPoints [[0,0],[10,10]]) 1
      = ([0,0,1,1], [mkPoints [[0,0],[10,10]]])
    ∧ get_centroids (mkPoints [[1,1],[1,2],[9,9],[9,8]]) [0,0,1,1]
      = mkPoints [[1, 3/2], [9, 17/2]] := by
  constructor
  · norm_num [run_k_means, run_aux, get_centroids, accStep, vadd,
      find_closest_centroids, mkPoints, mkPoint, argmin, argminAux, sqdist,
      OQ.lt, OQ.add, OQ.sub, OQ.mul, OQ.div]
  · norm_num [get_centroids, accStep, vadd, mkPoints, mkPoint,
      OQ.add, OQ.div, replicate_one_eq, replicate_two_eq, replicate_three_eq,
      set_cons_zero_eq, set_cons_one_eq, set_cons_two_eq,
      getD_cons_zero_eq, getD_cons_one_eq, getD_cons_two_eq,
      zip_cons_cons_eq, zip_nil_eq, nil_zip_eq]

/-- Claim C9, counterexample: with iterations = -1 (which is < 0) the driver
returns ([], []) normally — the loop body never runs and no
InvalidConfiguration (nor any other) failure occurs, contradicting the claim
that invalid configurations are rejected before any iteration. -/
theorem c9_no_validation_counterexample :
    run_k_means (mkPoints [[0,0],[1,1]]) (mkPoints [[0,0]]) (-1) = ([], []) := rfl

/-- Claim C9 (amended): the code performs no configuration validation at all.
Negative iteration counts are silently accepted and yield an empty run with
no assignment or aggregation work; K = 0 (an empty centroid set) with zero
iterations likewise returns normally; and K > N in random-initialization mode
fails with an IndexError while copying the K-th centroid inside
choose_random_centroids, not with an InvalidConfiguration check before the
run. -/
theorem c9_no_invalid_configuration_amended :
    (∀ (samples C : List Point) (n : ℤ), n < 0 → run_k_means samples C n = ([], []))
    ∧ (∀ (b : List Point) (K : ℕ), b.length < K →
        choose_random_centroids b K = Except.error KErr.indexError)
    ∧ (∀ samples : List Point, run_k_means samples [] 0 = ([], [])) := by
  refine ⟨?_, ?_, ?_⟩
  · intro s C n hn
    have h0 : n.toNat = 0 := Int.toNat_of_nonpos (le_of_lt hn)
    rw [run_k_means, h0]
    rfl
  · intro b K h
    rw [choose_random_centroids, if_neg (by omega)]
  · intro s
    rfl

/-- Witness for claim C9 (amended): a negative iteration count returns
([], []) normally, and asking for 3 random centroids out of 2 samples is an
IndexError. -/
theorem c9_no_invalid_configuration_amended_witness :
    ((-1 : ℤ) < 0 ∧ run_k_means (mkPoints [[5,5]]) (mkPoints [[1,2]]) (-1) = ([], []))
    ∧ ((mkPoints [[1,2],[3,4]]).length < 3
        ∧ choose_random_centroids (mkPoints [[1,2],[3,4]]) 3
            = Except.error KErr.indexError)
    ∧ run_k_means (mkPoints [[5,5]]) [] 0 = ([], []) :=
  ⟨⟨by decide,
    c9_no_invalid_configuration_amended.1 (mkPoints [[5,5]]) (mkPoints [[1,2]]) (-1) (by decide)⟩,
   ⟨by decide,
    c9_no_invalid_configuration_amended.2.1 (mkPoints [[1,2],[3,4]]) 3 (by decide)⟩,
   c9_no_invalid_configuration_amended.2.2 (mkPoints [[5,5]])⟩

/-- Claim C10: running the driver with iterations = 0 returns an empty
centroid history together with the empty assignment (the initial value of the
clusters variable), and raises no error: the loop body never executes, so no
validation, assignment or aggregation work happens. -/
theorem c10_zero_iterations (samples initial_centroids : List Point) :
    run_k_means samples initial_centroids 0 = ([], []) := rfl

/-- Claim C3: for a non-empty point set (with dimension-consistent inputs, the
domain on which the numpy code runs without exceptions) and iterations ≥ 1,
run_k_means performs exactly that many iterations: it returns the assignment
computed from the centroid set of the final iteration, together with a
history of length exactly iterations whose entry i is the centroid set
current at the start of iteration i (kiter i) — the first entry being the
initial centroids, unmutated.  The centroid set recomputed inside the final
iteration, kiter at index iterations, is neither appended to the history nor
returned. -/
theorem c3_run_returns_full_history (sQ cQ : List (List ℚ)) (n : ℤ)
    (hn : 1 ≤ n) (hs : sQ ≠ [])
    (hdim : ∀ p, p ∈ sQ → p.length = (sQ.headD []).length)
    (hdimc : ∀ q, q ∈ cQ → q.length = (sQ.headD []).length) :
    run_k_means (mkPoints sQ) (mkPoints cQ) n
      = (find_closest_centroids (mkPoints sQ)
           (kiter (mkPoints sQ) (n.toNat - 1) (mkPoints cQ)),
         (List.range n.toNat).map (fun i => kiter (mkPoints sQ) i (mkPoints cQ)))
    ∧ (run_k_means (mkPoints sQ) (mkPoints cQ) n).2.length = n.toNat
    ∧ (run_k_means (mkPoints sQ) (mkPoints cQ) n).2.getD 0 [] = mkPoints cQ := by
  have h0 : ¬ n.toNat = 0 := by omega
  have hmain : run_k_means (mkPoints sQ) (mkPoints cQ) n
      = (find_closest_centroids (mkPoints sQ)
           (kiter (mkPoints sQ) (n.toNat - 1) (mkPoints cQ)),
         (List.range n.toNat).map (fun i => kiter (mkPoints sQ) i (mkPoints cQ))) := by
    rw [run_k_means, run_aux_spec, if_neg h0, List.nil_append]
  refine ⟨hmain, ?_, ?_⟩
  · rw [hmain]
    simp [List.length_map, List.length_range]
  · rw [hmain]
    obtain ⟨m, hm⟩ : ∃ m, n.toNat = m + 1 := ⟨n.toNat - 1, by omega⟩
    rw [hm, List.range_succ_eq_map, List.map_cons, getD_cons_zero_eq]
    rfl

/-- Witness for claim C3 at the concrete scenario, with 2 iterations. -/
theorem c3_run_returns_full_history_witness :
    (1 : ℤ) ≤ 2
    ∧ ([[1,1],[1,2],[9,9],[9,8]] : List (List ℚ)) ≠ []
    ∧ (∀ p, p ∈ ([[1,1],[1,2],[9,9],[9,8]] : List (List ℚ)) →
        p.length = (([[1,1],[1,2],[9,9],[9,8]] : List (List ℚ)).headD []).length)
    ∧ (∀ q, q ∈ ([[0,0],[10,10]] : List (List ℚ)) →
        q.length = (([[1,1],[1,2],[9,9],[9,8]] : List (List ℚ)).headD []).length)
    ∧ (run_k_means (mkPoints [[1,1],[1,2],[9,9],[9,8]]) (mkPoints [[0,0],[10,10]]) 2
        = (find_closest_centroids (mkPoints [[1,1],[1,2],[9,9],[9,8]])
             (kiter (mkPoints [[1,1],[1,2],[9,9],[9,8]]) ((2:ℤ).toNat - 1)
               (mkPoints [[0,0],[10,10]])),
           (List.range (2:ℤ).toNat).map
             (fun i => kiter (mkPoints [[1,1],[1,2],[9,9],[9,8]]) i
               (mkPoints [[0,0],[10,10]])))
      ∧ (run_k_means (mkPoints [[1,1],[1,2],[9,9],[9,8]])
          (mkPoints [[0,0],[10,10]]) 2).2.length = (2:ℤ).toNat
      ∧ (run_k_means (mkPoints [[1,1],[1,2],[9,9],[9,8]])
          (mkPoints [[0,0],[10,10]]) 2).2.getD 0 [] = mkPoints [[0,0],[10,10]]) :=
  ⟨by decide, by decide, by decide, by decide,
   c3_run_returns_full_history [[1,1],[1,2],[9,9],[9,8]] [[0,0],[10,10]] 2
     (by decide) (by decide) (by decide) (by decide)⟩

/-- Claim C4: if the centroids are stable — aggregating the assignment of C
reproduces C — then running the driver for any number of further iterations
changes nothing: the returned assignment is the assignment of C, the history
is just C repeated, and the centroids recomputed from the returned assignment
are again C. -/
theorem c4_converged_run_is_constant (sQ cQ : List (List ℚ))
    (hstab : get_centroids (mkPoints sQ)
        (find_closest_centroids (mkPoints sQ) (mkPoints cQ)) = mkPoints cQ)
    (n : ℤ) (hn : 1 ≤ n) :
    run_k_means (mkPoints sQ) (mkPoints cQ) n
      = (find_closest_centroids (mkPoints sQ) (mkPoints cQ),
         List.replicate n.toNat (mkPoints cQ))
    ∧ get_centroids (mkPoints sQ)
        (run_k_means (mkPoints sQ) (mkPoints cQ) n).1 = mkPoints cQ := by
  have hstep : kstep (mkPoints sQ) (mkPoints cQ) = mkPoints cQ := hstab
  have hfix : ∀ i, kiter (mkPoints sQ) i (mkPoints cQ) = mkPoints cQ :=
    fun i => kiter_fixed _ _ hstep i
  have h0 : ¬ n.toNat = 0 := by omega
  have hmain : run_k_means (mkPoints sQ) (mkPoints cQ) n
      = (find_closest_centroids (mkPoints sQ) (mkPoints cQ),
         List.replicate n.toNat (mkPoints cQ)) := by
    rw [run_k_means, run_aux_spec, if_neg h0, List.nil_append]
    simp only [hfix]
    rw [map_const_replicate, List.length_range]
  refine ⟨hmain, ?_⟩
  rw [hmain]
  exact hstab

/-- Witness for claim C4: the scenario points with their converged centroids
(1, 3/2) and (9, 17/2) are stable, and 3 further iterations change nothing. -/
theorem c4_converged_run_is_constant_witness :
    (get_centroids (mkPoints [[1,1],[1,2],[9,9],[9,8]])
        (find_closest_centroids (mkPoints [[1,1],[1,2],[9,9],[9,8]])
          (mkPoints [[1,3/2],[9,17/2]])) = mkPoints [[1,3/2],[9,17/2]])
    ∧ (1 : ℤ) ≤ 3
    ∧ (run_k_means (mkPoints [[1,1],[1,2],[9,9],[9,8]]) (mkPoints [[1,3/2],[9,17/2]]) 3
        = (find_closest_centroids (mkPoints [[1,1],[1,2],[9,9],[9,8]])
             (mkPoints [[1,3/2],[9,17/2]]),
           List.replicate (3:ℤ).toNat (mkPoints [[1,3/2],[9,17/2]]))
      ∧ get_centroids (mkPoints [[1,1],[1,2],[9,9],[9,8]])
          (run_k_means (mkPoints [[1,1],[1,2],[9,9],[9,8]])
            (mkPoints [[1,3/2],[9,17/2]]) 3).1 = mkPoints [[1,3/2],[9,17/2]]) := by
  have hstab : get_centroids (mkPoints [[1,1],[1,2],[9,9],[9,8]])
      (find_closest_centroids (mkPoints [[1,1],[1,2],[9,9],[9,8]])
        (mkPoints [[1,3/2],[9,17/2]])) = mkPoints [[1,3/2],[9,17/2]] := by
    norm_num [get_centroids, accStep, vadd, find_closest_centroids,
      mkPoints, mkPoint, argmin, argminAux, sqdist,
      OQ.lt, OQ.add, OQ.sub, OQ.mul, OQ.div,
      replicate_one_eq, replicate_two_eq, replicate_three_eq,
      set_cons_zero_eq, set_cons_one_eq, set_cons_two_eq,
      getD_cons_zero_eq, getD_cons_one_eq, getD_cons_two_eq,
      zip_cons_cons_eq, zip_nil_eq, nil_zip_eq]
  exact ⟨hstab, by decide,
    c4_converged_run_is_constant [[1,1],[1,2],[9,9],[9,8]] [[1,3/2],[9,17/2]]
      hstab 3 (by decide)⟩

/-- Claim C6: the assign operation is deterministic — in this embedding
find_closest_centroids is a pure function of its two inputs, so identical
inputs produce identical outputs by construction — and the cluster id chosen
for each point is the lowest index among centroids at minimal squared
distance: it is a valid index, no centroid has a strictly smaller squared
distance, and every centroid with a smaller index has a strictly larger
squared distance, so an exact tie is resolved to the lower index. -/
theorem c6_first_minimum_tie_break (sQ cQ : List (List ℚ)) (hc : cQ ≠ [])
    (i : ℕ) (hi : i < sQ.length) :
    (find_closest_centroids (mkPoints sQ) (mkPoints cQ)).getD i 0 < cQ.length
    ∧ (∀ j, j < cQ.length →
        sqdistQ (sQ.getD i [])
            (cQ.getD ((find_closest_centroids (mkPoints sQ) (mkPoints cQ)).getD i 0) [])
          ≤ sqdistQ (sQ.getD i []) (cQ.getD j []))
    ∧ (∀ j, j < (find_closest_centroids (mkPoints sQ) (mkPoints cQ)).getD i 0 →
        sqdistQ (sQ.getD i [])
            (cQ.getD ((find_closest_centroids (mkPoints sQ) (mkPoints cQ)).getD i 0) [])
          < sqdistQ (sQ.getD i []) (cQ.getD j [])) := by
  have hgetD : (find_closest_centroids (mkPoints sQ) (mkPoints cQ)).getD i 0
      = argminQ (cQ.map (fun c => sqdistQ (sQ.getD i []) c)) := by
    rw [find_closest_mkPoints]
    exact getD_map_lt _ [] 0 sQ i hi
  have hne : cQ.map (fun c => sqdistQ (sQ.getD i []) c) ≠ [] := by
    intro hnil
    exact hc (List.map_eq_nil.mp hnil)
  obtain ⟨hlt, hmin, hstrict⟩ := argminQ_spec _ hne
  have hltc : argminQ (cQ.map (fun c => sqdistQ (sQ.getD i []) c)) < cQ.length := by
    simpa [List.length_map] using hlt
  rw [hgetD]
  refine ⟨hltc, ?_, ?_⟩
  · intro j hj
    have h1 := hmin j (by simpa [List.length_map] using hj)
    rw [getD_map_lt _ [] 0 cQ _ hltc, getD_map_lt _ [] 0 cQ j hj] at h1
    exact h1
  · intro j hj
    have h2 := hstrict j hj
    have hjc : j < cQ.length := lt_trans hj hltc
    rw [getD_map_lt _ [] 0 cQ _ hltc, getD_map_lt _ [] 0 cQ j hjc] at h2
    exact h2

/-- Witness for claim C6: the point (1,0) is exactly equidistant from the
centroids (0,0) and (2,0), and is assigned to cluster 0, the lower index. -/
theorem c6_first_minimum_tie_break_witness :
    ([[0,0],[2,0]] : List (List ℚ)) ≠ []
    ∧ 0 < ([[1,0]] : List (List ℚ)).length
    ∧ ((find_closest_centroids (mkPoints [[1,0]]) (mkPoints [[0,0],[2,0]])).getD 0 0
          < ([[0,0],[2,0]] : List (List ℚ)).length
      ∧ (∀ j, j < ([[0,0],[2,0]] : List (List ℚ)).length →
          sqdistQ (([[1,0]] : List (List ℚ)).getD 0 [])
              (([[0,0],[2,0]] : List (List ℚ)).getD
                ((find_closest_centroids (mkPoints [[1,0]]) (mkPoints [[0,0],[2,0]])).getD 0 0) [])
            ≤ sqdistQ (([[1,0]] : List (List ℚ)).getD 0 [])
                (([[0,0],[2,0]] : List (List ℚ)).getD j []))
      ∧ (∀ j, j < (find_closest_centroids (mkPoints [[1,0]]) (mkPoints [[0,0],[2,0]])).getD 0 0 →
          sqdistQ (([[1,0]] : List (List ℚ)).getD 0 [])
              (([[0,0],[2,0]] : List (List ℚ)).getD
                ((find_closest_centroids (mkPoints [[1,0]]) (mkPoints [[0,0],[2,0]])).getD 0 0) [])
            < sqdistQ (([[1,0]] : List (List ℚ)).getD 0 [])
                (([[0,0],[2,0]] : List (List ℚ)).getD j [])))
    ∧ find_closest_centroids (mkPoints [[1,0]]) (mkPoints [[0,0],[2,0]]) = [0] := by
  refine ⟨by decide, by decide,
    c6_first_minimum_tie_break [[1,0]] [[0,0],[2,0]] (by decide) 0 (by decide), ?_⟩
  norm_num [find_closest_centroids, mkPoints, mkPoint, argmin, argminAux, sqdist,
    OQ.lt, OQ.add, OQ.sub, OQ.mul]

/-- Claim C7: for every cluster id c that has at least one assigned point,
entry c of the get_centroids output is exactly the coordinate-wise arithmetic
mean of the points whose assignment equals c (clusterMean, modelled from the
spec words: filter the points of cluster c, sum them coordinate-wise, divide
by their number). -/
theorem c7_aggregate_is_cluster_mean (sQ : List (List ℚ)) (clusters : List ℕ) (c : ℕ)
    (hmem : c ∈ clusters) (hlen : clusters.length = sQ.length)
    (hdim : ∀ p, p ∈ sQ → p.length = (sQ.headD []).length) :
    (get_centroids (mkPoints sQ) clusters)[c]?
      = some (mkPoint (clusterMean sQ clusters c)) :=
  get_centroids_mkPoints_mean sQ clusters c hmem (le_of_eq hlen)

/-- Witness for claim C7, the K=1 special case of the claim: with both points
assigned to cluster 0, the single centroid is the mean of all points,
(2, 3). -/
theorem c7_aggregate_is_cluster_mean_witness :
    (0 : ℕ) ∈ ([0,0] : List ℕ)
    ∧ ([0,0] : List ℕ).length = ([[1,1],[3,5]] : List (List ℚ)).length
    ∧ (∀ p, p ∈ ([[1,1],[3,5]] : List (List ℚ)) →
        p.length = (([[1,1],[3,5]] : List (List ℚ)).headD []).length)
    ∧ (get_centroids (mkPoints [[1,1],[3,5]]) [0,0])[0]?
        = some (mkPoint (clusterMean [[1,1],[3,5]] [0,0] 0))
    ∧ clusterMean [[1,1],[3,5]] [0,0] 0 = [2, 3] := by
  refine ⟨by decide, by decide, by decide,
    c7_aggregate_is_cluster_mean [[1,1],[3,5]] [0,0] 0 (by decide) (by decide) (by decide), ?_⟩
  norm_num [clusterMean, clusterPoints, zip_cons_cons_eq, zip_nil_eq, nil_zip_eq,
    replicate_one_eq, replicate_two_eq]

/-- Claim C8: for every non-empty point set and non-empty centroid set of
matching dimensionality, the assign operation returns exactly one cluster id
per point (N ids) and every returned id is a valid centroid index in
[0, K). -/
theorem c8_assign_length_and_range (samples centroids : List Point) (d : ℕ)
    (hs : samples ≠ []) (hc : centroids ≠ [])
    (hdim : ∀ p, p ∈ samples → p.length = d)
    (hdimc : ∀ q, q ∈ centroids → q.length = d) :
    (find_closest_centroids samples centroids).length = samples.length
    ∧ ∀ a, a ∈ find_closest_centroids samples centroids → a < centroids.length := by
  refine ⟨List.length_map _ _, ?_⟩
  intro a ha
  rcases List.mem_map.mp ha with ⟨s, _, rfl⟩
  have hne : centroids.map (fun c => sqdist s c) ≠ [] := by
    intro hnil
    exact hc (List.map_eq_nil.mp hnil)
  have hlt := argmin_lt _ hne
  simpa [List.length_map] using hlt

/-- Witness for claim C8: two points, three centroids, dimension 2. -/
theorem c8_assign_length_and_range_witness :
    mkPoints [[1,1],[5,5]] ≠ []
    ∧ mkPoints [[0,0],[4,4],[9,9]] ≠ []
    ∧ (∀ p, p ∈ mkPoints [[1,1],[5,5]] → p.length = 2)
    ∧ (∀ q, q ∈ mkPoints [[0,0],[4,4],[9,9]] → q.length = 2)
    ∧ ((find_closest_centroids (mkPoints [[1,1],[5,5]]) (mkPoints [[0,0],[4,4],[9,9]])).length
          = (mkPoints [[1,1],[5,5]]).length
      ∧ ∀ a, a ∈ find_closest_centroids (mkPoints [[1,1],[5,5]])
            (mkPoints [[0,0],[4,4],[9,9]]) → a < (mkPoints [[0,0],[4,4],[9,9]]).length) :=
  ⟨by decide, by decide, by decide, by decide,
   c8_assign_length_and_range (mkPoints [[1,1],[5,5]]) (mkPoints [[0,0],[4,4],[9,9]]) 2
     (by decide) (by decide) (by decide) (by decide)⟩
